import Mathlib

/-!
Verification development for `src/deobfuscator.py`, a regex-driven
JavaScript deobfuscator.  The Python functions are shallowly embedded as
executable Lean definitions over `List Char` buffers: regular-expression
passes become hand-compiled character scanners with the same matching
semantics, machine-level byte arithmetic is `Nat` with explicit `% 256`,
fallible operations return `Option`/`Except`, and the unbounded
`while True` rewrite loop and the delegate-chain `while` loop take an
explicit fuel argument (`none` = the Python loop is still running after
that many iterations).
-/

namespace Deob

abbrev Chars := List Char

/-! ## Character-class helpers (ASCII models of the regex classes used) -/

/-- Model of the regex class `\w` = `[a-zA-Z0-9_]`. -/
def isWordChar (c : Char) : Bool :=
  ('a' ≤ c && c ≤ 'z') || ('A' ≤ c && c ≤ 'Z') || ('0' ≤ c && c ≤ '9') || c = '_'

/-- Model of the regex class `\s` (ASCII whitespace). -/
def isWsChar (c : Char) : Bool :=
  c = ' ' || c = '\t' || c = '\n' || c = '\x0d' || c = '\x0b' || c = '\x0c'

def isDigitChar (c : Char) : Bool := '0' ≤ c && c ≤ '9'

/-- Maximal prefix satisfying `p` together with the rest (regex greedy run). -/
def spanP (p : Char → Bool) : Chars → Chars × Chars
  | [] => ([], [])
  | c :: cs =>
    if p c then
      let (a, b) := spanP p cs
      (c :: a, b)
    else ([], c :: cs)

def skipWs (cs : Chars) : Chars := (spanP isWsChar cs).2

/-- Consume an exact literal, returning the rest. -/
def expectStr : Chars → Chars → Option Chars
  | [], cs => some cs
  | _ :: _, [] => none
  | l :: ls, c :: cs => if c = l then expectStr ls cs else none

def natOfDigits (ds : Chars) : Nat :=
  ds.foldl (fun acc c => 10 * acc + (c.toNat - '0'.toNat)) 0

/-- Nonempty digit run: `(\d+)` followed by the rest. -/
def digitRun1 (cs : Chars) : Option (Nat × Chars) :=
  let (ds, rest) := spanP isDigitChar cs
  if ds.isEmpty then none else some (natOfDigits ds, rest)

/-- Nonempty word run: `([a-zA-Z0-9_]+)` followed by the rest. -/
def wordRun1 (cs : Chars) : Option (Chars × Chars) :=
  let (ws, rest) := spanP isWordChar cs
  if ws.isEmpty then none else some (ws, rest)

/-- Python `int(s)`: optional surrounding whitespace, optional sign, one or
more ASCII digits (digit-group underscores are not modelled).  `none` means
`int` raises `ValueError`. -/
def pyInt (cs : Chars) : Option Int :=
  let t := ((skipWs cs.reverse)).reverse
  let t := skipWs t
  match t with
  | '-' :: ds =>
    let (d, rest) := spanP isDigitChar ds
    if d.isEmpty || !rest.isEmpty then none else some (-(natOfDigits d : Int))
  | '+' :: ds =>
    let (d, rest) := spanP isDigitChar ds
    if d.isEmpty || !rest.isEmpty then none else some (natOfDigits d : Int)
  | ds =>
    let (d, rest) := spanP isDigitChar ds
    if d.isEmpty || !rest.isEmpty then none else some (natOfDigits d : Int)

/-! ## CipherEngine: `_rc4_cipher` (deobfuscator.py lines 374-391) -/

/-- Python parallel assignment `s[i], s[j] = s[j], s[i]`. -/
def swapList (l : List Nat) (i j : Nat) : List Nat :=
  (l.set i (l.getD j 0)).set j (l.getD i 0)

/-- Key-scheduling loop: `for i in range(256): j = (j + s[i] + key[i % len]) % 256; swap`. -/
def ksa (key : List Nat) : List Nat :=
  ((List.range 256).foldl
    (fun (p : List Nat × Nat) i =>
      let j := (p.2 + p.1.getD i 0 + key.getD (i % key.length) 0) % 256
      (swapList p.1 i j, j))
    (List.range 256, 0)).1

structure Rc4St where
  i : Nat
  j : Nat
  s : List Nat
deriving DecidableEq

/-- One iteration of the keystream loop: update cursors, swap, emit `k`. -/
def prgaStep (st : Rc4St) : Rc4St × Nat :=
  let i := (st.i + 1) % 256
  let j := (st.j + st.s.getD i 0) % 256
  let s := swapList st.s i j
  (⟨i, j, s⟩, s.getD ((s.getD i 0 + s.getD j 0) % 256) 0)

/-- The data loop of `_rc4_cipher`: XOR each data byte with the keystream byte. -/
def prgaRun : Rc4St → List Nat → List Nat
  | _, [] => []
  | st, b :: rest =>
    let (st', k) := prgaStep st
    (b ^^^ k) :: prgaRun st' rest

/-- The raw keystream produced by the same state evolution (data-independent). -/
def keystream : Rc4St → Nat → List Nat
  | _, 0 => []
  | st, n + 1 =>
    let (st', k) := prgaStep st
    k :: keystream st' n

/-- Python `key.encode('latin-1')`: per-character byte values; `none` models
`UnicodeEncodeError` for characters above U+00FF. -/
def latin1 (cs : Chars) : Option (List Nat) :=
  if cs.all (fun c => c.toNat < 256) then some (cs.map (·.toNat)) else none

/-- `_rc4_cipher(data, key)`.  `none` models an exception: `UnicodeEncodeError`
from `key.encode('latin-1')`, or `ZeroDivisionError` from `i % len(key_bytes)`
when the key is empty.  Output bytes are returned as bytes; the Python
`res.decode('latin-1')` is applied by the caller model. -/
def rc4_cipher (data : List Nat) (key : Chars) : Option (List Nat) :=
  match latin1 key with
  | none => none
  | some kb =>
    if kb.isEmpty then none
    else some (prgaRun ⟨0, 0, ksa kb⟩ data)

/-! ## PoolRotator: the rotation loop of `_apply_array_shuffling` (lines 225-226) -/

/-- The loop `for _ in range(shuffle_amount): strings.append(strings.pop(0))`.
`strings.pop(0)` on an empty list raises `IndexError`, which the surrounding
`except (ValueError, IndexError)` catches, returning the list as mutated so
far. -/
def shuffleLoop {α : Type} : Nat → List α → List α
  | 0, l => l
  | _ + 1, [] => []
  | n + 1, x :: xs => shuffleLoop n (xs ++ [x])

/-! ## ChainResolver: the delegate-chain loop inside `decrypt` (lines 399-405) -/

structure FuncEntry where
  calls : String
  offset : Int
deriving DecidableEq

abbrev FuncMap := List (String × FuncEntry)

/-- Python dict lookup `function_map.get(name)` (keys are unique). -/
def lookupFM (m : FuncMap) (k : String) : Option FuncEntry :=
  (m.find? (fun p => p.1 = k)).map (·.2)

/-- Python dict insertion `function_map[name] = v`: replace in place, else append. -/
def alInsert {β : Type} : List (String × β) → String → β → List (String × β)
  | [], k, v => [(k, v)]
  | (k', v') :: rest, k, v =>
    if k' = k then (k, v) :: rest else (k', v') :: alInsert rest k v

/-- The `while current_func:` loop of `decrypt`.  The loop condition is always
true (each entry dict is nonempty), so the loop exits only through the
`break` when the delegate name is falsy or not in the map.  `fuel` counts
iterations; `none` means the Python loop is still running after `fuel`
iterations — the source has no hop bound of its own. -/
def chainLoop (m : FuncMap) : Nat → Int → FuncEntry → Option Int
  | 0, _, _ => none
  | n + 1, index, cur =>
    let index' := index - cur.offset
    if cur.calls = "" then some index'
    else
      match lookupFM m cur.calls with
      | none => some index'
      | some nxt => chainLoop m n index' nxt

/-- The named bias constant `410` subtracted from the raw index argument. -/
def BIAS : Int := 410

/-- The chain-resolution part of `decrypt`: `if function_map and
function_name in function_map:` then run the delegate loop (an empty dict is
falsy, which is subsumed by the lookup failing). -/
def chainResolve (fuel : Nat) (m : Option FuncMap) (functionName : String)
    (index0 : Int) : Option Int :=
  match m with
  | none => some index0
  | some fm =>
    match lookupFM fm functionName with
    | none => some index0
    | some cur => chainLoop fm fuel index0 cur

/-! ## `base64.b64decode` (Python standard library, default `validate=False`) -/

/-- Value of a base64 alphabet character. -/
def b64val (c : Char) : Option Nat :=
  if 'A' ≤ c && c ≤ 'Z' then some (c.toNat - 'A'.toNat)
  else if 'a' ≤ c && c ≤ 'z' then some (c.toNat - 'a'.toNat + 26)
  else if '0' ≤ c && c ≤ '9' then some (c.toNat - '0'.toNat + 52)
  else if c = '+' then some 62
  else if c = '/' then some 63
  else none

/-- Decode 4-character groups into 3 bytes, with a final partial group of 2
or 3 characters giving 1 or 2 bytes. -/
def b64chunks : List Nat → Option (List Nat)
  | [] => some []
  | [_] => none
  | [a, b] => some [(a * 4 + b / 16) % 256]
  | [a, b, c] => some [(a * 4 + b / 16) % 256, (b % 16 * 16 + c / 4) % 256]
  | a :: b :: c :: d :: rest =>
    match b64chunks rest with
    | none => none
    | some bs =>
      some ((a * 4 + b / 16) % 256 :: (b % 16 * 16 + c / 4) % 256 ::
            (c % 4 * 64 + d) % 256 :: bs)

/-- `base64.b64decode(s)` with `validate=False`: characters outside the
alphabet are discarded, decoding stops at the first `=` padding, and a
left-over group of one character (incorrect padding) is a `binascii.Error`
(`none`).  Missing trailing `=` characters are not themselves rejected here;
the error cases the claims rely on are covered. -/
def b64decode (cs : Chars) : Option (List Nat) :=
  let sig := cs.filter (fun c => (b64val c).isSome || c = '=')
  let body := (spanP (fun c => c ≠ '=') sig).1
  b64chunks (body.filterMap b64val)

/-! ## `decrypt` (deobfuscator.py lines 393-415) -/

/-- The nested `decrypt(function_name, index_str, key)` of
`_replace_decrypted_strings`.  Outer `none`: the delegate-chain `while` loop
is still running after `chainFuel` iterations.  `some none`: the Python
function returns `None` (unparsable index, out-of-range index, or an
exception caught by the inner `try`).  `some (some s)`: the decoded string. -/
def decrypt (chainFuel : Nat) (m : Option FuncMap) (strings : List Chars)
    (functionName : String) (indexStr key : Chars) : Option (Option Chars) :=
  match pyInt indexStr with
  | none => some none
  | some v =>
    match chainResolve chainFuel m functionName (v - BIAS) with
    | none => none
    | some index =>
      if 0 ≤ index ∧ index < (strings.length : Int) then
        let obfuscated := strings.getD index.toNat []
        match b64decode obfuscated with
        | none => some none
        | some decoded =>
          match rc4_cipher decoded key with
          | none => some none
          | some out => some (some (out.map (fun b => Char.ofNat b)))
      else some none

/-! ## StringCallRewriter: `_replace_decrypted_strings` (lines 417-440) -/

/-- The captured pieces of one match of
`\b([a-zA-Z0-9_]+)\(([^,]+),\s*"([^"]*)"\)`. -/
structure CallParts where
  nameCs : Chars
  idxCs : Chars
  wsCs : Chars
  keyCs : Chars
deriving DecidableEq

/-- Total matched length: name, `(`, index arg, `,`, whitespace, `"`, key, `"`, `)`. -/
def CallParts.mlen (p : CallParts) : Nat :=
  p.nameCs.length + p.idxCs.length + p.wsCs.length + p.keyCs.length + 5

/-- Attempt the call pattern at the head of `cs`; `prev` is the character just
before (for the `\b` word boundary).  All runs are greedy and none of them can
backtrack (each is followed by a character outside its class). -/
def tryCallAt (prev : Option Char) (cs : Chars) : Option CallParts :=
  if (prev.map isWordChar).getD false then none
  else
    match wordRun1 cs with
    | none => none
    | some (name, rest1) =>
      match rest1 with
      | '(' :: rest2 =>
        let (idxA, rest3) := spanP (fun c => c ≠ ',') rest2
        if idxA.isEmpty then none
        else
          match rest3 with
          | ',' :: rest4 =>
            let (ws, rest5) := spanP isWsChar rest4
            match rest5 with
            | '"' :: rest6 =>
              let (key, rest7) := spanP (fun c => c ≠ '"') rest6
              match rest7 with
              | '"' :: ')' :: _ => some ⟨name, idxA, ws, key⟩
              | _ => none
            | _ => none
          | _ => none
      | _ => none

structure CallMatch where
  start : Nat
  mlen : Nat
  funcName : String
  idxArg : Chars
  keyArg : Chars
deriving DecidableEq

/-- Leftmost match of the call pattern: try each start position in turn. -/
def findCallFrom (prev : Option Char) : Chars → Nat → Option CallMatch
  | [], _ => none
  | c :: cs, i =>
    match tryCallAt prev (c :: cs) with
    | some p => some ⟨i, p.mlen, String.mk p.nameCs, p.idxCs, p.keyCs⟩
    | none => findCallFrom (some c) cs (i + 1)

/-- `call_pattern.search(transformed_code, pos)`; the character at `pos - 1`
is visible to the leading `\b`. -/
def findCallMatch (code : Chars) (pos : Nat) : Option CallMatch :=
  findCallFrom (if pos = 0 then none else (code.drop (pos - 1)).head?)
    (code.drop pos) pos

/-- JSON string escaping of one character, following `json.dumps` with its
default `ensure_ascii=True` (characters outside printable ASCII become
`\uXXXX`; the inputs here never exceed U+00FF). -/
def jsonEscapeChar (c : Char) : Chars :=
  if c = '"' then ['\\', '"']
  else if c = '\\' then ['\\', '\\']
  else if c = '\n' then ['\\', 'n']
  else if c = '\x0d' then ['\\', 'r']
  else if c = '\t' then ['\\', 't']
  else if c = '\x08' then ['\\', 'b']
  else if c = '\x0c' then ['\\', 'f']
  else if c.toNat < 32 || 126 < c.toNat then
    let hexDigit := fun (n : Nat) =>
      if n < 10 then Char.ofNat ('0'.toNat + n) else Char.ofNat ('a'.toNat + n - 10)
    ['\\', 'u', hexDigit (c.toNat / 4096 % 16), hexDigit (c.toNat / 256 % 16),
     hexDigit (c.toNat / 16 % 16), hexDigit (c.toNat % 16)]
  else [c]

def concatAll (ls : List Chars) : Chars := ls.foldr (· ++ ·) []

/-- `json.dumps(value)` for a string value. -/
def jsonDumps (cs : Chars) : Chars :=
  '"' :: concatAll (cs.map jsonEscapeChar) ++ ['"']

/-- `transformed_code[:start] + replacement + transformed_code[end:]`. -/
def substituteAt (code : Chars) (m : CallMatch) (val : Chars) : Chars :=
  code.take m.start ++ jsonDumps val ++ code.drop (m.start + m.mlen)

/-- The `while True` loop of `_replace_decrypted_strings`.  One fuel unit per
iteration; `none` means the loop is still running.  `Except.error` models an
uncaught Python exception: `func_name in function_map` with `function_map`
equal to `None` raises `TypeError` before the `or` can short-circuit. -/
def replaceLoop (chainFuel : Nat) (strings : List Chars) (fm : Option FuncMap) :
    Nat → Chars → Nat → Option (Except String Chars)
  | 0, _, _ => none
  | fuel + 1, code, pos =>
    match findCallMatch code pos with
    | none => some (.ok code)
    | some m =>
      match fm with
      | none => some (.error "TypeError")
      | some fmap =>
        if (lookupFM fmap m.funcName).isSome || m.funcName = "f" then
          match decrypt chainFuel (some fmap) strings m.funcName m.idxArg m.keyArg with
          | none => none
          | some none => replaceLoop chainFuel strings fm fuel code (m.start + m.mlen)
          | some (some val) =>
            replaceLoop chainFuel strings fm fuel (substituteAt code m val) 0
        else replaceLoop chainFuel strings fm fuel code (m.start + m.mlen)

/-- `_replace_decrypted_strings(source_code, strings, function_map)`. -/
def replace_decrypted_strings (loopFuel chainFuel : Nat) (source : Chars)
    (strings : List Chars) (fm : Option FuncMap) : Option (Except String Chars) :=
  replaceLoop chainFuel strings fm loopFuel source 0

/-! ## Generic finditer / sub / lazy-search engines -/

/-- `re.finditer`: try the pattern at every position, left to right,
continuing after each non-overlapping match.  One fuel unit per step; fuel
`length + 1` always suffices since every step consumes at least one
character. -/
def scanAll {α : Type} (try1 : Chars → Option (α × Chars)) : Nat → Chars → List α
  | 0, _ => []
  | _, [] => []
  | f + 1, c :: cs =>
    match try1 (c :: cs) with
    | some (a, rest) => a :: scanAll try1 f rest
    | none => scanAll try1 f cs

/-- `re.sub`: like `scanAll` but rebuilding the text, splicing in each
match's replacement. -/
def subAll (try1 : Chars → Option (Chars × Chars)) : Nat → Chars → Chars
  | 0, cs => cs
  | _, [] => []
  | f + 1, c :: cs =>
    match try1 (c :: cs) with
    | some (repl, rest) => repl ++ subAll try1 f rest
    | none => c :: subAll try1 f cs

/-- Lazy `[\s\S]+?` followed by a subpattern: try the subpattern after
consuming one character, then two, and so on (shortest first, as the lazy
quantifier backtracks). -/
def searchTails1 {α : Type} (f : Chars → Option α) : Chars → Option α
  | [] => none
  | _ :: cs =>
    match f cs with
    | some a => some a
    | none => searchTails1 f cs

/-- Lazy `[\s\S]*?` followed by a subpattern (zero characters tried first). -/
def searchTails0 {α : Type} (f : Chars → Option α) (cs : Chars) : Option α :=
  match f cs with
  | some a => some a
  | none => searchTails1 f cs

/-- Strip ASCII whitespace from both ends. -/
def trimWs (cs : Chars) : Chars :=
  (skipWs (skipWs cs).reverse).reverse

/-! ## DynamicRulesExtractor: `extract_dynamic_rules` (lines 38-140) -/

/-- One match of the array pattern `\[\s*([^\]]+?)\s*\]`: everything up to
the first `]`, at least one character, with the surrounding `\s*` pieces
taking the flanking whitespace (so the group is the whitespace-trimmed
content; when the content is all whitespace the lazy group keeps its last
character). -/
def tryArrayAt : Chars → Option (Chars × Chars)
  | '[' :: rest =>
    let (raw, rest') := spanP (fun c => c ≠ ']') rest
    (match rest' with
     | ']' :: rest'' =>
       if raw.isEmpty then none
       else
         let t := trimWs raw
         some ((if t.isEmpty then raw.drop (raw.length - 1) else t), rest'')
     | _ => none)
  | _ => none

/-- One match of the plain string-literal pattern `"([^"]*)"`. -/
def tryStrLitAt : Chars → Option (Chars × Chars)
  | '"' :: rest =>
    let (content, rest') := spanP (fun c => c ≠ '"') rest
    (match rest' with
     | '"' :: rest'' => some (content, rest'')
     | _ => none)
  | _ => none

/-- One match of `(\w+)\s*([+\-%])\s*(\d+)`, keeping the operator and the
right operand (the left identifier is not used by the extraction). -/
def tryBinOpAt (cs : Chars) : Option ((Char × Nat) × Chars) :=
  match wordRun1 cs with
  | none => none
  | some (_, rest1) =>
    match skipWs rest1 with
    | op :: rest2 =>
      if op = '+' || op = '-' || op = '%' then
        match digitRun1 (skipWs rest2) with
        | some (n, rest3) => some ((op, n), rest3)
        | none => none
      else none
    | [] => none

/-- One match of `(\d+)\s*%\s*(\d+)` (both operand values kept). -/
def tryModAt (cs : Chars) : Option ((Nat × Nat) × Chars) :=
  match digitRun1 cs with
  | none => none
  | some (l, rest1) =>
    match skipWs rest1 with
    | '%' :: rest2 =>
      match digitRun1 (skipWs rest2) with
      | some (r, rest3) => some ((l, r), rest3)
      | none => none
    | _ => none

/-- All matches of `binary_op_pattern_left` over the source. -/
def scanModPairs (source : Chars) : List (Nat × Nat) :=
  scanAll tryModAt (source.length + 1) source

/-- Whether `int(s, 16)` succeeds: optional whitespace and sign, optional
`0x`/`0X` prefix, then at least one hex digit. -/
def pyIntHexOk (cs : Chars) : Bool :=
  let t := trimWs cs
  let t := match t with
    | '-' :: r => r
    | '+' :: r => r
    | r => r
  let t := match t with
    | '0' :: 'x' :: r => r
    | '0' :: 'X' :: r => r
    | r => r
  !t.isEmpty && t.all (fun c =>
    isDigitChar c || ('a' ≤ c && c ≤ 'f') || ('A' ≤ c && c ≤ 'F'))

/-- One step of the array loop (lines 70-94): the three independent `if`s
updating `static_param`, `prefix`, `suffix` in source order (`None` is the
only falsy value these variables can hold). -/
def rulesArraysStep (acc : Option Chars × Option Chars × Option Chars)
    (content : Chars) : Option Chars × Option Chars × Option Chars :=
  let elements := scanAll tryStrLitAt (content.length + 1) content
  match elements with
  | [] => acc
  | e0 :: _ =>
    let (sp, pf, sf) := acc
    let sp := if e0.length == 32 && sp.isNone then some e0 else sp
    let pf := if (!e0.isEmpty && e0.all isDigitChar) && pf.isNone then some e0 else pf
    let lastE := elements.getLastD []
    let sf := if !lastE.isEmpty && sf.isNone && pyIntHexOk lastE then some lastE else sf
    (sp, pf, sf)

def arraysPass (source : Chars) : Option Chars × Option Chars × Option Chars :=
  (scanAll tryArrayAt (source.length + 1) source).foldl rulesArraysStep
    (none, none, none)

/-- `sorted(list(set(xs)))`. -/
def sortedDedup (l : List Nat) : List Nat :=
  List.insertionSort (· ≤ ·) l.dedup

/-- The `checksum_indexes` accumulation (lines 115-119): every match of
`(\d+)\s*%\s*(\d+)` pushes `left % 40`, whatever the right operand is. -/
def checksumIndexesOf (source : Chars) : List Nat :=
  sortedDedup ((scanModPairs source).map (fun p => p.1 % 40))

/-- The `checksum_constant` accumulation (lines 106-113). -/
def checksumConstantOf (source : Chars) : Int :=
  (scanAll tryBinOpAt (source.length + 1) source).foldl
    (fun acc p =>
      if p.1 = '+' then acc + (p.2 : Int)
      else if p.1 = '-' then acc - (p.2 : Int)
      else acc) 0

structure DynamicRules where
  start : Option Chars
  endVal : Option Chars
  format : Option Chars
  prefixVal : Option Chars
  suffix : Option Chars
  static_param : Option Chars
  remove_headers : List Chars
  checksum_indexes : List Nat
  checksum_constant : Int
deriving DecidableEq

/-- `extract_dynamic_rules(source_code)` (the Python record keys `end` and
`prefix` are Lean keywords, hence `endVal` / `prefixVal`). -/
def extract_dynamic_rules (source : Chars) : DynamicRules :=
  let sp := (arraysPass source).1
  let pf := (arraysPass source).2.1
  let sf := (arraysPass source).2.2
  { start := pf
    endVal := sf
    format :=
      match pf, sf with
      | some p, some s => some (p ++ (":\x7b\x7d:\x7b:x\x7d:").toList ++ s)
      | _, _ => none
    prefixVal := pf
    suffix := sf
    static_param := sp
    remove_headers := ["user_id".toList]
    checksum_indexes := checksumIndexesOf source
    checksum_constant := checksumConstantOf source }

/-! ## StringPoolExtractor: `_extract_string_array` (lines 143-190) -/

/-- `const\s+([a-zA-Z0-9_]+)\s*=\s*<delim>` attempted at one position. -/
def tryConstDeclAt (delim : Char) (cs : Chars) : Option (Chars × Chars) :=
  match expectStr "const".toList cs with
  | none => none
  | some r1 =>
    let (ws, r2) := spanP isWsChar r1
    if ws.isEmpty then none
    else
      match wordRun1 r2 with
      | none => none
      | some (name, r3) =>
        match skipWs r3 with
        | '=' :: r4 =>
          (match skipWs r4 with
           | d :: r5 => if d = delim then some (name, r5) else none
           | [] => none)
        | _ => none

/-- First match of the declaration pattern anywhere in the text. -/
def findConstDecl (delim : Char) : Chars → Option (Chars × Chars)
  | [] => none
  | c :: cs =>
    match tryConstDeclAt delim (c :: cs) with
    | some r => some r
    | none => findConstDecl delim cs

/-- The manual balanced-delimiter scan (lines 170-179 and 487-496): depth
starts at 1, the content before the position where it reaches 0 is
returned; `none` if the end of text is reached first. -/
def delimScan (openC closeC : Char) : Nat → Chars → Option Chars
  | _, [] => none
  | level, c :: cs =>
    let level' := if c = openC then level + 1 else if c = closeC then level - 1 else level
    if level' = 0 then some []
    else (delimScan openC closeC level' cs).map (c :: ·)

/-- Content of the escaped string-literal pattern `"((?:\\\\\"|[^\"])*)"`
after an opening quote: greedy alternation with backtracking — a
`\\"` triple is preferred, a single non-quote character is the fallback,
and a bare `"` closes the literal.  Fuel `length + 1` suffices (every call
shortens the text). -/
def strLitContent : Nat → Chars → Option (Chars × Chars)
  | 0, _ => none
  | _ + 1, [] => none
  | _ + 1, '"' :: cs => some ([], cs)
  | f + 1, '\\' :: '\\' :: '"' :: cs =>
    (match strLitContent f cs with
     | some (ct, r) => some ('\\' :: '\\' :: '"' :: ct, r)
     | none =>
       match strLitContent f ('\\' :: '"' :: cs) with
       | some (ct, r) => some ('\\' :: ct, r)
       | none => none)
  | f + 1, c :: cs =>
    match strLitContent f cs with
    | some (ct, r) => some (c :: ct, r)
    | none => none

/-- One match of the escaped string-literal pattern. -/
def tryEscStrLitAt : Chars → Option (Chars × Chars)
  | '"' :: rest => strLitContent (rest.length + 1) rest
  | _ => none

/-- `_extract_string_array(source_code)`. -/
def extract_string_array (source : Chars) : Option (Chars × List Chars) :=
  match findConstDecl '[' source with
  | none => none
  | some (arrayName, rest) =>
    match delimScan '[' ']' 1 rest with
    | none => none
    | some content =>
      some (arrayName, scanAll tryEscStrLitAt (content.length + 1) content)

/-! ## PoolRotator: `_apply_array_shuffling` (lines 192-230) -/

/-- Tail of the shuffler IIFE pattern after `.shift());`:
`\s*\}\s*;?\s*\}\s*\)\s*\([^,]+?,\s*(\d+)\s*\);` capturing the amount. -/
def shuffleTailPart (cs : Chars) : Option Nat :=
  match skipWs cs with
  | '}' :: r1 =>
    let r2 := skipWs r1
    let r3 := match r2 with
      | ';' :: t => t
      | t => t
    (match skipWs r3 with
     | '}' :: r4 =>
       (match skipWs r4 with
        | ')' :: r5 =>
          (match skipWs r5 with
           | '(' :: r6 =>
             let (arg, r7) := spanP (fun c => c ≠ ',') r6
             if arg.isEmpty then none
             else
               match r7 with
               | ',' :: r8 =>
                 (match digitRun1 (skipWs r8) with
                  | some (n, r9) =>
                    (match skipWs r9 with
                     | ')' :: ';' :: _ => some n
                     | _ => none)
                  | none => none)
               | _ => none
           | _ => none)
        | _ => none)
     | _ => none)
  | _ => none

/-- `\.push\(` then lazily `\.shift\(\)\);` then the tail. -/
def shufflePartC (cs : Chars) : Option Nat :=
  match expectStr ".push(".toList cs with
  | none => none
  | some r =>
    searchTails1
      (fun t =>
        match expectStr ".shift());".toList t with
        | none => none
        | some r2 => shuffleTailPart r2) r

/-- `while\s*\(--\w+\)\s*\{\s*` then lazily the `.push(` part. -/
def shufflePartB (cs : Chars) : Option Nat :=
  match expectStr "while".toList cs with
  | none => none
  | some r =>
    match skipWs r with
    | '(' :: r2 =>
      match expectStr "--".toList r2 with
      | none => none
      | some r3 =>
        match wordRun1 r3 with
        | none => none
        | some (_, r4) =>
          match r4 with
          | ')' :: r5 =>
            (match skipWs r5 with
             | '{' :: r6 => searchTails1 shufflePartC (skipWs r6)
             | _ => none)
          | _ => none
    | _ => none

/-- The IIFE header `\s*\(\s*function\s*\(\s*\w+\s*,\s*(\w+)\s*\)\s*\{`
attempted at one position, then lazily the `while` part. -/
def tryShuffleAt (cs : Chars) : Option Nat :=
  match skipWs cs with
  | '(' :: r1 =>
    match expectStr "function".toList (skipWs r1) with
    | none => none
    | some r2 =>
      match skipWs r2 with
      | '(' :: r3 =>
        match wordRun1 (skipWs r3) with
        | none => none
        | some (_, r4) =>
          match skipWs r4 with
          | ',' :: r5 =>
            (match wordRun1 (skipWs r5) with
             | none => none
             | some (_, r6) =>
               match skipWs r6 with
               | ')' :: r7 =>
                 (match skipWs r7 with
                  | '{' :: r8 => searchTails1 shufflePartB r8
                  | _ => none)
               | _ => none)
          | _ => none
      | _ => none
  | _ => none

/-- `pattern.search(source_code)` for the shuffler IIFE, returning the
captured numeric amount. -/
def findShuffleAmount (source : Chars) : Option Nat :=
  searchTails0 tryShuffleAt source

/-- `_apply_array_shuffling(strings, source_code, array_name)` (the array
name parameter is unused by the Python pattern as well). -/
def apply_array_shuffling (strings : List Chars) (source : Chars)
    (_arrayName : Chars) : List Chars :=
  match findShuffleAmount source with
  | none => strings
  | some n => shuffleLoop n strings

/-! ## ChainResolver discovery: `_extract_decryption_functions` (lines 443-469) -/

/-- After the matched `-` of `[^,]+?-`: `\s*(-?\d+)[^)]*\)[\s\S]*?\}` —
optional sign, digits, skip to the first `)`, then lazily to the first `}`
(the overall match ends there). -/
def funcOffsetTail (cs : Chars) : Option (Int × Chars) :=
  let r := skipWs cs
  let (negSign, r2) :=
    match r with
    | '-' :: t => (true, t)
    | t => (false, t)
  match digitRun1 r2 with
  | none => none
  | some (n, r3) =>
    let (_, r4) := spanP (fun c => c ≠ ')') r3
    match r4 with
    | ')' :: r5 =>
      let (_, r6) := spanP (fun c => c ≠ '}') r5
      (match r6 with
       | '}' :: r7 => some ((if negSign then -(n : Int) else (n : Int)), r7)
       | _ => none)
    | _ => none

/-- The lazy `[^,]+?-` search: find each `-` preceded by at least one
comma-free character, trying the offset tail there, extending on failure;
a comma aborts (the class excludes it). -/
def findMinus : Bool → Chars → Option (Int × Chars)
  | _, [] => none
  | consumed, c :: cs =>
    if c = ',' then none
    else if c = '-' && consumed then
      match funcOffsetTail cs with
      | some r => some r
      | none => findMinus true cs
    else findMinus true cs

/-- `return\s+([a-zA-Z0-9_]+)\(` then the offset part, for a wrapper named
`name`. -/
def funcReturnPart (name : Chars) (cs : Chars) :
    Option ((String × FuncEntry) × Chars) :=
  match expectStr "return".toList cs with
  | none => none
  | some r1 =>
    let (ws, r2) := spanP isWsChar r1
    if ws.isEmpty then none
    else
      match wordRun1 r2 with
      | none => none
      | some (callee, r3) =>
        match r3 with
        | '(' :: r4 =>
          (match findMinus false r4 with
           | none => none
           | some (offset, rest) =>
             some ((String.mk name, ⟨String.mk callee, offset⟩), rest))
        | _ => none

/-- One match of the wrapper pattern
`function\s+([a-zA-Z0-9_]+)\s*\([^)]+\)\s*\{[\s\S]*?return\s+([a-zA-Z0-9_]+)\([^,]+?-\s*(-?\d+)[^)]*\)[\s\S]*?\}`. -/
def tryFuncAt (cs : Chars) : Option ((String × FuncEntry) × Chars) :=
  match expectStr "function".toList cs with
  | none => none
  | some r1 =>
    let (ws, r2) := spanP isWsChar r1
    if ws.isEmpty then none
    else
      match wordRun1 r2 with
      | none => none
      | some (name, r3) =>
        match skipWs r3 with
        | '(' :: r4 =>
          let (params, r5) := spanP (fun c => c ≠ ')') r4
          if params.isEmpty then none
          else
            match r5 with
            | ')' :: r6 =>
              (match skipWs r6 with
               | '{' :: r7 => searchTails0 (funcReturnPart name) r7
               | _ => none)
            | _ => none
        | _ => none

/-- `_extract_decryption_functions(source_code)`; `None` when no wrapper
matched (the `int` conversion in the loop cannot fail, the regex guarantees
digits). -/
def extract_decryption_functions (source : Chars) : Option FuncMap :=
  let m := (scanAll tryFuncAt (source.length + 1) source).foldl
    (fun m p => alInsert m p.1 p.2) []
  if m.isEmpty then none else some m

/-! ## OperatorMapExtractor: `_extract_operator_map` (lines 472-521) -/

inductive OpVal
  | binary (op : Char)
  | strConst (value : Chars)
deriving DecidableEq

abbrev OpMap := List (String × OpVal)

/-- The operator class `([+\-%*&|/])`. -/
def isOpChar (c : Char) : Bool :=
  c = '+' || c = '-' || c = '%' || c = '*' || c = '&' || c = '|' || c = '/'

/-- After the operator of the binop property pattern:
`\s*[^;]+;\s*\}` — at least one non-semicolon character, the semicolon,
whitespace, closing brace; returns the rest after the match. -/
def binopTail (cs : Chars) : Option Chars :=
  let r := skipWs cs
  let (body, r2) := spanP (fun c => c ≠ ';') r
  if body.isEmpty then none
  else
    match r2 with
    | ';' :: r3 =>
      (match skipWs r3 with
       | '}' :: r4 => some r4
       | _ => none)
    | _ => none

/-- The backtracking of `[^ ]+\s*([+\-%*&|/])`: the greedy non-space run
gives characters back from the right until the next character (after
optional whitespace, which can only be non-empty for the full run) is an
operator and the tail matches.  The first argument is the reversed
candidate run, longest candidate first. -/
def binopTryRev : Chars → Chars → Option (Char × Chars)
  | [], _ => none
  | c :: revRest, given =>
    match
      (match skipWs given with
       | op :: r2 =>
         if isOpChar op then (binopTail r2).map (fun rest => (op, rest)) else none
       | [] => none) with
    | some r => some r
    | none => binopTryRev revRest (c :: given)

/-- One match of the binary-operator property pattern
`([a-zA-Z0-9_]+)\s*:\s*function\([^)]+\)\s*\{\s*return\s+[^ ]+\s*([+\-%*&|/])\s*[^;]+;\s*\}`. -/
def tryOMBinopAt (cs : Chars) : Option ((String × OpVal) × Chars) :=
  match wordRun1 cs with
  | none => none
  | some (key, r1) =>
    match skipWs r1 with
    | ':' :: r2 =>
      match expectStr "function(".toList (skipWs r2) with
      | none => none
      | some r3 =>
        let (params, r4) := spanP (fun c => c ≠ ')') r3
        if params.isEmpty then none
        else
          match r4 with
          | ')' :: r5 =>
            (match skipWs r5 with
             | '{' :: r6 =>
               (match expectStr "return".toList (skipWs r6) with
                | none => none
                | some r7 =>
                  let (ws2, r8) := spanP isWsChar r7
                  if ws2.isEmpty then none
                  else
                    let (run, r9) := spanP (fun c => c ≠ ' ') r8
                    match binopTryRev run.reverse r9 with
                    | some (op, rest) => some ((String.mk key, OpVal.binary op), rest)
                    | none => none)
             | _ => none)
          | _ => none
    | _ => none

/-- One match of the string property pattern
`([a-zA-Z0-9_]+)\s*:\s*"((?:\\\\\"|[^\"])*)"`. -/
def tryOMStrAt (cs : Chars) : Option ((String × OpVal) × Chars) :=
  match wordRun1 cs with
  | none => none
  | some (key, r1) =>
    match skipWs r1 with
    | ':' :: r2 =>
      (match skipWs r2 with
       | '"' :: r3 =>
         (match strLitContent (r3.length + 1) r3 with
          | some (v, rest) => some ((String.mk key, OpVal.strConst v), rest)
          | none => none)
       | _ => none)
    | _ => none

/-- `_extract_operator_map(source_code)`: first `const <id> = {` declaration,
balanced-brace body, then the binop pass and the string pass (the latter can
overwrite keys of the former, as in the Python dict). -/
def extract_operator_map (source : Chars) : Option (String × OpMap) :=
  match findConstDecl '{' source with
  | none => none
  | some (mapName, rest) =>
    match delimScan '{' '}' 1 rest with
    | none => none
    | some body =>
      let m1 := (scanAll tryOMBinopAt (body.length + 1) body).foldl
        (fun m p => alInsert m p.1 p.2) []
      let m := (scanAll tryOMStrAt (body.length + 1) body).foldl
        (fun m p => alInsert m p.1 p.2) m1
      if m.isEmpty then none else some (String.mk mapName, m)

/-! ## OperatorMapRewriter: `_replace_operator_map_uses` (lines 320-366) -/

/-- One match of `<mapName>\.<key>\(([^,]+?),([^)]+?)\)` with replacement
`(\1 <op> \2)`. -/
def tryBinUseAt (mapName key : Chars) (op : Char) (cs : Chars) :
    Option (Chars × Chars) :=
  match expectStr (mapName ++ '.' :: key ++ ['(']) cs with
  | none => none
  | some r1 =>
    let (a1, r2) := spanP (fun c => c ≠ ',') r1
    if a1.isEmpty then none
    else
      match r2 with
      | ',' :: r3 =>
        let (a2, r4) := spanP (fun c => c ≠ ')') r3
        if a2.isEmpty then none
        else
          match r4 with
          | ')' :: rest => some ('(' :: a1 ++ ' ' :: op :: ' ' :: a2 ++ [')'], rest)
          | _ => none
      | _ => none

/-- One match of `<mapName>\["<key>"\]` with the `json.dumps` replacement
(inserted literally; the `re.sub` template escape processing is not
modelled — the keys and values arising here contain no template escapes). -/
def tryStrUseAt (mapName key value : Chars) (cs : Chars) :
    Option (Chars × Chars) :=
  (expectStr (mapName ++ '[' :: '"' :: key ++ ['"', ']']) cs).map
    (fun rest => (jsonDumps value, rest))

/-- `_replace_operator_map_uses(source_code, operator_map_data)`: the binary
substitutions in map order, then the string substitutions in map order,
each a full `re.sub` pass over the running buffer. -/
def replace_operator_map_uses (source : Chars) (omd : Option (String × OpMap)) :
    Chars :=
  match omd with
  | none => source
  | some (mapName, om) =>
    let s1 := om.foldl
      (fun code p =>
        match p.2 with
        | .binary op => subAll (tryBinUseAt mapName.toList p.1.toList op) (code.length + 1) code
        | .strConst _ => code) source
    om.foldl
      (fun code p =>
        match p.2 with
        | .strConst v => subAll (tryStrUseAt mapName.toList p.1.toList v) (code.length + 1) code
        | .binary _ => code) s1

/-! ## ExpressionSimplifier: `_simplify_expressions` and
`_convert_bracket_to_dot_notation` (lines 292-317) -/

/-- The part of `(\w+)\s*\?\s*\1\s*:\s*(\w+)` after the first group, for a
fixed candidate `w1` (the backreference `\1` is an exact literal). -/
def ternaryTail (w1 : Chars) (given : Chars) : Option (Chars × Chars) :=
  match skipWs given with
  | '?' :: r1 =>
    match expectStr w1 (skipWs r1) with
    | none => none
    | some r2 =>
      match skipWs r2 with
      | ':' :: r3 =>
        (match wordRun1 (skipWs r3) with
         | some (w2, rest) => some (w1 ++ ' ' :: '|' :: '|' :: ' ' :: w2, rest)
         | none => none)
      | _ => none
  | _ => none

/-- Greedy backtracking over the length of the first group (longest
candidate first, shorter prefixes of the word run as fallback). -/
def ternaryTryRev : Chars → Chars → Option (Chars × Chars)
  | [], _ => none
  | c :: revRest, given =>
    match ternaryTail (c :: revRest).reverse given with
    | some r => some r
    | none => ternaryTryRev revRest (c :: given)

/-- One match of the ternary pattern with replacement `\1 || \2`. -/
def tryTernaryAt (cs : Chars) : Option (Chars × Chars) :=
  match wordRun1 cs with
  | none => none
  | some (run, rest) => ternaryTryRev run.reverse rest

/-- `_simplify_expressions(source_code)`. -/
def simplify_expressions (source : Chars) : Chars :=
  subAll tryTernaryAt (source.length + 1) source

def isIdentStart (c : Char) : Bool :=
  ('a' ≤ c && c ≤ 'z') || ('A' ≤ c && c ≤ 'Z') || c = '_'

/-- One match of `([a-zA-Z0-9_]+)\["([a-zA-Z_][a-zA-Z0-9_]*)"\]` with
replacement `\1.\2`. -/
def tryBracketAt (cs : Chars) : Option (Chars × Chars) :=
  match wordRun1 cs with
  | none => none
  | some (obj, r1) =>
    match r1 with
    | '[' :: '"' :: c :: r2 =>
      if isIdentStart c then
        let (keyRest, r3) := spanP isWordChar r2
        match r3 with
        | '"' :: ']' :: rest => some (obj ++ '.' :: c :: keyRest, rest)
        | _ => none
      else none
    | _ => none

/-- `_convert_bracket_to_dot_notation(source_code)` (Lean name shortened:
the Python name ends in a word Lean reserves). -/
def convert_bracket_to_dot (source : Chars) : Chars :=
  subAll tryBracketAt (source.length + 1) source

/-! ## The pipeline: `deobfuscate_source` (lines 233-289) -/

/-- `deobfuscate_source(source_code)`.  `some (.ok _)` is a normal return,
`some (.error e)` an uncaught Python exception propagating out of the
pipeline, `none` fuel exhaustion of the unbounded rewrite/chain loops. -/
def deobfuscate_source (loopFuel chainFuel : Nat) (source : Chars) :
    Option (Except String Chars) :=
  match extract_string_array source with
  | none => some (.ok source)
  | some (arrayName, strs0) =>
    let strs := apply_array_shuffling strs0 source arrayName
    let fm := extract_decryption_functions source
    match replace_decrypted_strings loopFuel chainFuel source strs fm with
    | none => none
    | some (.error e) => some (.error e)
    | some (.ok code1) =>
      let omd := extract_operator_map code1
      let code2 := replace_operator_map_uses code1 omd
      let code3 := simplify_expressions code2
      some (.ok (convert_bracket_to_dot code3))

/-! ## Fixtures used by the theorems -/

/-- A self-delegating function map, as produced by
`_extract_decryption_functions` from `function a(W,n){return a(n- 0,W)}`. -/
def cycMap : FuncMap := [("a", ⟨"a", 0⟩)]

/-- Input with a string pool but no decrypt wrapper functions, containing
one call-shaped site. -/
def srcNoMap : Chars := "const I = [\"x\"]; g(1, \"k\");".toList

/-- The spec's end-to-end fixture: the pool holds the base64 of
`RC4("key", "secret")` and the source calls `f(410, "key")`, with no
rotation routine and no wrapper chain. -/
def srcEndToEnd : Chars := "const I = [\"eAlXn0H7\"]; f(410, \"key\");".toList

/-! ## Theorems -/

/-- On the self-cycle map, the delegate loop never reaches a `break`:
whatever the iteration bound, the loop is still running. -/
theorem chainLoop_cyc (fuel : Nat) : ∀ i : Int, chainLoop cycMap fuel i ⟨"a", 0⟩ = none := by
  induction fuel with
  | zero => intro i; rfl
  | succ n ih =>
    intro i
    have hlk : lookupFM cycMap "a" = some ⟨"a", 0⟩ := rfl
    simp only [chainLoop, hlk]
    rw [if_neg (by decide)]
    exact ih _

/-- C1: claimed — chain resolution terminates within `|map|` hops on every
map, cycles included, a trip of the bound counting as a resolution failure.
The code has no hop bound at all: on the self-delegating map the `while`
loop of `decrypt` never exits, for any number of iterations (so the Python
call never returns). -/
theorem c1_chain_loop_never_terminates_on_cycle (fuel : Nat) (strings : List Chars)
    (key : Chars) :
    decrypt fuel (some cycMap) strings "a" ("410".toList) key = none := by
  have hp : pyInt ("410".toList) = some 410 := rfl
  have hc : chainResolve fuel (some cycMap) "a" (410 - BIAS) = none := by
    have hlk : lookupFM cycMap "a" = some ⟨"a", 0⟩ := rfl
    simp only [chainResolve, hlk]
    exact chainLoop_cyc fuel _
  simp only [decrypt, hp, hc]

/-- C2: claimed — with the pool found but the decrypt-function map absent,
the pipeline completes without raising.  In the code,
`func_name in function_map` is evaluated with `function_map = None` as soon
as any call-shaped site is matched, raising `TypeError` and aborting the
pipeline. -/
theorem c2_pipeline_typeerror_without_function_map (lf cf : Nat) :
    deobfuscate_source (lf + 1) cf srcNoMap = some (.error "TypeError") := rfl

/-- C3: first part (holds): resolving through an empty chain — the function
name is not in the map — returns the biased index unchanged, so the
resolved index is `rawArg - BIAS`.  Second part (fails in the code): on the
spec's own end-to-end fixture the wrapper map is `None`, so the rewrite pass
raises `TypeError` at the call site instead of rewriting `f(410, "key")` to
`"secret"`. -/
theorem c3_empty_chain_bias_and_end_to_end :
    (∀ (cf : Nat) (fm : FuncMap) (nm : String) (i : Int),
      lookupFM fm nm = none → chainResolve cf (some fm) nm i = some i) ∧
    (∀ lf cf : Nat,
      deobfuscate_source (lf + 1) cf srcEndToEnd = some (.error "TypeError")) := by
  constructor
  · intro cf fm nm i h
    simp only [chainResolve, h]
  · intro lf cf
    rfl

/-- Witness for the hypothesis-bearing part of the C3 theorem at a concrete
empty map. -/
theorem c3_empty_chain_bias_and_end_to_end_witness :
    lookupFM [] "f" = none ∧ chainResolve 0 (some []) "f" 5 = some 5 :=
  ⟨rfl, c3_empty_chain_bias_and_end_to_end.1 0 [] "f" 5 rfl⟩

/-- C4 counterexample: claimed — only `<digits> % 40` patterns contribute to
`checksum_indexes`, so on a source whose only modulo pattern is `7 % 50`
the set would be empty.  The code keys the contribution on any
`(\d+)\s*%\s*(\d+)` match and pushes `left % 40`, so `7 % 50` contributes
`7`. -/
theorem c4_mod50_contributes_counterexample :
    (extract_dynamic_rules ("7 % 50".toList)).checksum_indexes = [7] := rfl

/-- C4 amended: every pattern `<digits> % <digits>` — any modulus, not only
40 — contributes its left digits taken mod 40 to `checksum_indexes`, and
those are exactly the members of the returned set. -/
theorem c4_any_modulus_contributes (s : Chars) (y : Nat) :
    y ∈ (extract_dynamic_rules s).checksum_indexes ↔
      ∃ p ∈ scanModPairs s, y = p.1 % 40 := by
  have h : (extract_dynamic_rules s).checksum_indexes = checksumIndexesOf s := rfl
  rw [h]
  unfold checksumIndexesOf sortedDedup
  rw [(List.perm_insertionSort _ _).mem_iff, List.mem_dedup, List.mem_map]
  constructor
  · rintro ⟨p, hp, hy⟩
    exact ⟨p, hp, hy.symm⟩
  · rintro ⟨p, hp, hy⟩
    exact ⟨p, hp, hy.symm⟩

/-- C5: if no string-pool declaration is found, the pipeline returns the
input buffer unchanged, with no rewriting pass applied. -/
theorem c5_no_pool_input_unchanged (s : Chars) (lf cf : Nat)
    (h : extract_string_array s = none) :
    deobfuscate_source lf cf s = some (.ok s) := by
  simp only [deobfuscate_source, h]

/-- Witness for C5 at a concrete pool-free input. -/
theorem c5_no_pool_input_unchanged_witness :
    extract_string_array ("hello".toList) = none ∧
    deobfuscate_source 3 3 ("hello".toList) = some (.ok ("hello".toList)) :=
  ⟨rfl, c5_no_pool_input_unchanged ("hello".toList) 3 3 rfl⟩

/-- Replaying the keystream over a buffer already XOR-masked with the same
keystream recovers the buffer: the state evolution of `prgaRun` is
data-independent, so both passes see identical `k` bytes. -/
theorem prgaRun_cons (st : Rc4St) (b : Nat) (rest : List Nat) :
    prgaRun st (b :: rest) = (b ^^^ (prgaStep st).2) :: prgaRun (prgaStep st).1 rest := rfl

theorem keystream_succ (st : Rc4St) (n : Nat) :
    keystream st (n + 1) = (prgaStep st).2 :: keystream (prgaStep st).1 n := rfl

theorem prgaRun_cancel (data : List Nat) : ∀ st : Rc4St,
    prgaRun st (List.zipWith (fun a b => a ^^^ b) data (keystream st data.length)) = data := by
  induction data with
  | nil => intro st; rfl
  | cons b rest ih =>
    intro st
    rw [List.length_cons, keystream_succ, List.zipWith_cons_cons, prgaRun_cons, ih]
    congr 1
    rw [Nat.xor_assoc, Nat.xor_self, Nat.xor_zero]

/-- C6: encoding a plaintext byte sequence by XOR with the keystream
generated from the key schedule, then decoding with `_rc4_cipher` and the
same key, recovers the original bytes (the key must be encodable and
nonempty, since an empty key makes the key schedule raise
`ZeroDivisionError`). -/
theorem c6_rc4_roundtrip (key : Chars) (data : List Nat)
    (h1 : key ≠ []) (h2 : ∀ c ∈ key, c.toNat < 256) :
    rc4_cipher
      (List.zipWith (fun a b => a ^^^ b) data
        (keystream ⟨0, 0, ksa (key.map (·.toNat))⟩ data.length)) key = some data := by
  have hl : latin1 key = some (key.map (·.toNat)) := by
    unfold latin1
    rw [if_pos]
    exact List.all_eq_true.mpr fun c hc => decide_eq_true (h2 c hc)
  have hne : (key.map (·.toNat)).isEmpty = false := by
    cases key with
    | nil => exact absurd rfl h1
    | cons c cs => rfl
  simp only [rc4_cipher, hl, hne, Bool.false_eq_true, if_false]
  rw [prgaRun_cancel]

/-- Witness for C6 at a concrete key and plaintext. -/
theorem c6_rc4_roundtrip_witness :
    (("k".toList : Chars) ≠ [] ∧ ∀ c ∈ ("k".toList : Chars), c.toNat < 256) ∧
    rc4_cipher
      (List.zipWith (fun a b => a ^^^ b) [104, 105]
        (keystream ⟨0, 0, ksa (("k".toList).map (·.toNat))⟩
          (List.length [104, 105]))) ("k".toList) = some [104, 105] :=
  ⟨⟨by decide, by decide⟩, c6_rc4_roundtrip ("k".toList) [104, 105] (by decide) (by decide)⟩

/-- The pop/append loop is iterated list rotation. -/
theorem shuffleLoop_rotate {α : Type} (n : Nat) : ∀ l : List α,
    shuffleLoop n l = l.rotate n := by
  induction n with
  | zero => intro l; rw [List.rotate_zero]; rfl
  | succ m ih =>
    intro l
    cases l with
    | nil => rw [List.rotate_nil]; rfl
    | cons x xs =>
      show shuffleLoop m (xs ++ [x]) = (x :: xs).rotate (m + 1)
      rw [ih, List.rotate_cons_succ]

/-- C7: repeating the move-first-element-to-end step `n` times equals the
single left rotation `pool[n mod len:] + pool[:n mod len]`; rotating by `0`
or by `len(pool)` is the identity, and rotating by `n` equals rotating by
`n mod len(pool)`. -/
theorem c7_shuffle_left_rotation {α : Type} (pool : List α) (n : Nat) :
    shuffleLoop n pool = pool.drop (n % pool.length) ++ pool.take (n % pool.length) ∧
    shuffleLoop 0 pool = pool ∧
    shuffleLoop pool.length pool = pool ∧
    shuffleLoop n pool = shuffleLoop (n % pool.length) pool := by
  refine ⟨?_, rfl, ?_, ?_⟩
  · rw [shuffleLoop_rotate, ← List.rotate_mod]
    cases pool with
    | nil => simp
    | cons x xs =>
      exact List.rotate_eq_drop_append_take
        (le_of_lt (Nat.mod_lt _ (Nat.succ_pos _)))
  · rw [shuffleLoop_rotate, List.rotate_length]
  · rw [shuffleLoop_rotate, shuffleLoop_rotate, List.rotate_mod]

/-- Any match returned by the position scan starts no earlier than the scan
index and has positive length. -/
theorem findCallFrom_bounds : ∀ (cs : Chars) (prev : Option Char) (i : Nat) (m : CallMatch),
    findCallFrom prev cs i = some m → i ≤ m.start ∧ 0 < m.mlen := by
  intro cs
  induction cs with
  | nil => intro prev i m h; exact absurd h (by simp [findCallFrom])
  | cons c cs ih =>
    intro prev i m h
    rw [findCallFrom] at h
    cases htry : tryCallAt prev (c :: cs) with
    | some p =>
      rw [htry] at h
      cases h
      refine ⟨Nat.le_refl _, ?_⟩
      simp only [CallParts.mlen]
      omega
    | none =>
      rw [htry] at h
      have := ih (some c) (i + 1) m h
      omega

/-- C8: in the rewrite loop, whenever the call pattern matches, the match
lies past the scan cursor and one loop iteration behaves as follows: if the
name check fails or resolution fails (`decrypt` returns `None`), the buffer
is passed on untouched and the cursor advances to the end of the match
(strictly past the old cursor, so the scan makes monotonic progress); after
a successful substitution the scan restarts at position 0 on the spliced
buffer. -/
theorem c8_failed_site_untouched_progress (chainFuel fuel : Nat)
    (strings : List Chars) (fmap : FuncMap) (code : Chars) (pos : Nat)
    (m : CallMatch) (hm : findCallMatch code pos = some m) :
    pos < m.start + m.mlen ∧
    replaceLoop chainFuel strings (some fmap) (fuel + 1) code pos =
      (if (lookupFM fmap m.funcName).isSome || m.funcName = "f" then
        match decrypt chainFuel (some fmap) strings m.funcName m.idxArg m.keyArg with
        | none => none
        | some none =>
          replaceLoop chainFuel strings (some fmap) fuel code (m.start + m.mlen)
        | some (some val) =>
          replaceLoop chainFuel strings (some fmap) fuel (substituteAt code m val) 0
       else replaceLoop chainFuel strings (some fmap) fuel code (m.start + m.mlen)) := by
  constructor
  · have hb := findCallFrom_bounds (code.drop pos)
      (if pos = 0 then none else (code.drop (pos - 1)).head?) pos m hm
    omega
  · rw [replaceLoop, hm]

/-- Witness for C8: the single call site `g(1, "k")` with a map that does
not know `g` and empty fuel downstream. -/
theorem c8_failed_site_untouched_progress_witness :
    findCallMatch ("g(1, \"k\")".toList) 0 = some ⟨0, 9, "g", ['1'], ['k']⟩ ∧
    (0 < (⟨0, 9, "g", ['1'], ['k']⟩ : CallMatch).start +
        (⟨0, 9, "g", ['1'], ['k']⟩ : CallMatch).mlen ∧
    replaceLoop 0 [] (some [("h", ⟨"h", 1⟩)]) (0 + 1) ("g(1, \"k\")".toList) 0 =
      (if (lookupFM [("h", ⟨"h", 1⟩)] (⟨0, 9, "g", ['1'], ['k']⟩ : CallMatch).funcName).isSome
          || (⟨0, 9, "g", ['1'], ['k']⟩ : CallMatch).funcName = "f" then
        match decrypt 0 (some [("h", ⟨"h", 1⟩)]) [] (⟨0, 9, "g", ['1'], ['k']⟩ : CallMatch).funcName
            (⟨0, 9, "g", ['1'], ['k']⟩ : CallMatch).idxArg (⟨0, 9, "g", ['1'], ['k']⟩ : CallMatch).keyArg with
        | none => none
        | some none =>
          replaceLoop 0 [] (some [("h", ⟨"h", 1⟩)]) 0 ("g(1, \"k\")".toList)
            ((⟨0, 9, "g", ['1'], ['k']⟩ : CallMatch).start + (⟨0, 9, "g", ['1'], ['k']⟩ : CallMatch).mlen)
        | some (some val) =>
          replaceLoop 0 [] (some [("h", ⟨"h", 1⟩)]) 0
            (substituteAt ("g(1, \"k\")".toList) ⟨0, 9, "g", ['1'], ['k']⟩ val) 0
       else
        replaceLoop 0 [] (some [("h", ⟨"h", 1⟩)]) 0 ("g(1, \"k\")".toList)
          ((⟨0, 9, "g", ['1'], ['k']⟩ : CallMatch).start + (⟨0, 9, "g", ['1'], ['k']⟩ : CallMatch).mlen))) :=
  ⟨rfl, c8_failed_site_untouched_progress 0 0 [] [("h", ⟨"h", 1⟩)]
    ("g(1, \"k\")".toList) 0 ⟨0, 9, "g", ['1'], ['k']⟩ rfl⟩

/-- C9: for every input source, `checksum_indexes` is sorted ascending, has
no duplicates, and every element lies in `[0, 40)`. -/
theorem c9_checksum_indexes_invariants (s : Chars) :
    List.Sorted (· ≤ ·) ((extract_dynamic_rules s).checksum_indexes) ∧
    ((extract_dynamic_rules s).checksum_indexes).Nodup ∧
    ∀ x ∈ (extract_dynamic_rules s).checksum_indexes, x < 40 := by
  have h : (extract_dynamic_rules s).checksum_indexes = checksumIndexesOf s := rfl
  rw [h]
  unfold checksumIndexesOf sortedDedup
  refine ⟨List.sorted_insertionSort _ _, ?_, ?_⟩
  · exact ((List.perm_insertionSort _ _).nodup_iff).mpr (List.nodup_dedup _)
  · intro x hx
    have hx' : x ∈ (scanModPairs s).map (fun p => p.1 % 40) :=
      List.mem_dedup.mp ((List.perm_insertionSort _ _).mem_iff.mp hx)
    obtain ⟨p, _, hpe⟩ := List.mem_map.mp hx'
    have h40 : p.1 % 40 < 40 := Nat.mod_lt _ (by norm_num)
    omega

/-- C10: the returned record always mirrors `prefix` into `start` and
`suffix` into `end` (both null together when the heuristics found
nothing). -/
theorem c10_start_end_mirror_prefix_suffix (s : Chars) :
    (extract_dynamic_rules s).start = (extract_dynamic_rules s).prefixVal ∧
    (extract_dynamic_rules s).endVal = (extract_dynamic_rules s).suffix :=
  ⟨rfl, rfl⟩

end Deob
